import Mathlib

/-!
Shallow embedding of the multi-tenant conversation session manager of
`src/app/user_context/service.py` (class `UserContextService`).

Python dictionaries preserve insertion order; they are embedded as
association lists (`List (String × α)`) with first-occurrence lookup,
in-place update (`aset`), and removal (`aremove`).  Wall-clock time is
abstracted to `Nat` ticks (`datetime.min` becomes `0`, `datetime.now()`
becomes an explicit `now` argument threaded through each call, and the
timeout comparison `now - last_activity > timedelta(minutes=t)` becomes
`now - last_activity > t` on `Nat`).  `async` methods are embedded as
pure state-passing functions on the `Store`.
-/

/-- First-occurrence lookup in an association list (Python `d[k]` / `k in d`). -/
def alookup (l : List (String × α)) (k : String) : Option α :=
  match l with
  | [] => none
  | (k', v) :: rest => if k' = k then some v else alookup rest k

/-- Python `d[k] = v`: update the entry in place if the key is present,
otherwise append a new entry at the end (insertion order). -/
def aset (l : List (String × α)) (k : String) (v : α) : List (String × α) :=
  match l with
  | [] => [(k, v)]
  | (k', v') :: rest => if k' = k then (k, v) :: rest else (k', v') :: aset rest k v

/-- Python `d.pop(k, None)`: remove the entry for `k` if present. -/
def aremove (l : List (String × α)) (k : String) : List (String × α) :=
  l.filter (fun e => !(e.1 == k))

/-- Apply `f` to the value stored at `k` (first occurrence), if present. -/
def amodify (l : List (String × α)) (k : String) (f : α → α) : List (String × α) :=
  match l with
  | [] => []
  | (k', v) :: rest => if k' = k then (k', f v) :: rest else (k', v) :: amodify rest k f

theorem alookup_aset_self (l : List (String × α)) (k : String) (v : α) :
    alookup (aset l k v) k = some v := by
  induction l with
  | nil => simp [aset, alookup]
  | cons e rest ih =>
    by_cases h : e.1 = k <;> simp [aset, alookup, h, ih]

theorem alookup_aset_ne (l : List (String × α)) (k k' : String) (v : α) (h : k ≠ k') :
    alookup (aset l k v) k' = alookup l k' := by
  induction l with
  | nil => simp [aset, alookup, h]
  | cons e rest ih =>
    by_cases he : e.1 = k
    · simp [aset, alookup, he, h]
    · by_cases he' : e.1 = k' <;> simp [aset, alookup, he, he', ih, Ne.symm h]

theorem aset_aset (l : List (String × α)) (k : String) (v w : α) :
    aset (aset l k v) k w = aset l k w := by
  induction l with
  | nil => simp [aset]
  | cons e rest ih =>
    by_cases h : e.1 = k <;> simp [aset, h, ih]

theorem alookup_amodify_self (l : List (String × α)) (k : String) (f : α → α) :
    alookup (amodify l k f) k = (alookup l k).map f := by
  induction l with
  | nil => simp [amodify, alookup]
  | cons e rest ih =>
    by_cases h : e.1 = k <;> simp [amodify, alookup, h, ih]

theorem alookup_amodify_ne (l : List (String × α)) (k k' : String) (f : α → α)
    (h : k ≠ k') : alookup (amodify l k f) k' = alookup l k' := by
  induction l with
  | nil => simp [amodify, alookup]
  | cons e rest ih =>
    by_cases he : e.1 = k
    · simp [amodify, alookup, he, h, Ne.symm h]
    · by_cases he' : e.1 = k' <;> simp [amodify, alookup, he, he', ih, Ne.symm h]

theorem alookup_aremove_self (l : List (String × α)) (k : String) :
    alookup (aremove l k) k = none := by
  induction l with
  | nil => simp [aremove, alookup]
  | cons e rest ih =>
    simp only [aremove, List.filter_cons] at ih ⊢
    cases hq : (e.1 == k) with
    | true => simpa [hq] using ih
    | false =>
      have hne : e.1 ≠ k := by simpa using hq
      simpa [hq, alookup, hne] using ih

theorem alookup_aremove_ne (l : List (String × α)) (k k' : String) (h : k ≠ k') :
    alookup (aremove l k) k' = alookup l k' := by
  induction l with
  | nil => simp [aremove, alookup]
  | cons e rest ih =>
    simp only [aremove, List.filter_cons] at ih ⊢
    cases hq : (e.1 == k) with
    | true =>
      have he : e.1 = k := by simpa using hq
      simp only [hq, Bool.not_true, if_neg (by simp : ¬(false = true))]
      rw [ih]
      have : e.1 ≠ k' := by rw [he]; exact h
      simp [alookup, this]
    | false =>
      by_cases he' : e.1 = k' <;>
        simp [hq, alookup, he', ih]

/-- Lookup commutes with a `filter` whose predicate only inspects the key. -/
theorem alookup_filter_key (l : List (String × α)) (q : String → Bool) (k : String) :
    alookup (l.filter (fun e => q e.1)) k =
      if q k then alookup l k else none := by
  induction l with
  | nil => simp [alookup]
  | cons e rest ih =>
    by_cases he : e.1 = k
    · subst he
      cases hq : q e.1 <;> simp [alookup, List.filter, hq, ih]
    · cases hq : q e.1 <;> simp [alookup, List.filter, hq, ih, he]

/-- Lookup commutes with a value map that may depend on the key. -/
theorem alookup_map_val (l : List (String × α)) (f : String → α → β) (k : String) :
    alookup (l.map (fun e => (e.1, f e.1 e.2))) k = (alookup l k).map (f k) := by
  induction l with
  | nil => simp [alookup]
  | cons e rest ih =>
    by_cases he : e.1 = k <;> simp [alookup, he, ih]

/-- A kept first occurrence survives an arbitrary `filter`. -/
theorem alookup_filter_of_kept (l : List (String × α)) (p : String × α → Bool)
    (k : String) (v : α) (hl : alookup l k = some v) (hp : p (k, v) = true) :
    alookup (l.filter p) k = some v := by
  induction l with
  | nil => simp [alookup] at hl
  | cons e rest ih =>
    by_cases he : e.1 = k
    · have hv : e.2 = v := by
        have := hl
        simp [alookup, he] at this
        exact this
      have hpe : p e = true := by
        have : e = (k, v) := by
          cases e; simp_all
        rw [this]; exact hp
      cases e
      simp_all [alookup, List.filter]
    · have hl' : alookup rest k = some v := by
        simpa [alookup, he] using hl
      cases hq : p e <;> simp [List.filter, hq, alookup, he, ih hl']

theorem alookup_filter_of_none (l : List (String × α)) (p : String × α → Bool)
    (k : String) (hl : alookup l k = none) :
    alookup (l.filter p) k = none := by
  induction l with
  | nil => simp [alookup]
  | cons e rest ih =>
    by_cases he : e.1 = k
    · simp [alookup, he] at hl
    · have hl' : alookup rest k = none := by simpa [alookup, he] using hl
      cases hq : p e <;> simp [List.filter, hq, alookup, he, ih hl']

theorem alookup_none_of_nonmem (l : List (String × α)) (k : String)
    (h : ∀ e ∈ l, e.1 ≠ k) : alookup l k = none := by
  induction l with
  | nil => rfl
  | cons e rest ih =>
    have hk := h e (by simp)
    simp [alookup, hk, ih (fun e' he' => h e' (by simp [he']))]

theorem alookup_isSome_ne_nil (l : List (String × α)) (k : String) (v : α)
    (h : alookup l k = some v) : l ≠ [] := by
  intro hnil; subst hnil; simp [alookup] at h

theorem mem_aset (l : List (String × α)) (k : String) (v : α) (e : String × α)
    (h : e ∈ aset l k v) : e = (k, v) ∨ e ∈ l := by
  induction l with
  | nil => simp [aset] at h; simp [h]
  | cons e' rest ih =>
    by_cases he : e'.1 = k
    · simp [aset, he] at h
      rcases h with h | h
      · left; simp [h]
      · right; simp [h]
    · simp [aset, he] at h
      rcases h with h | h
      · right; simp [h]
      · rcases ih h with h' | h'
        · left; exact h'
        · right; simp [h']

theorem mem_amodify (l : List (String × α)) (k : String) (f : α → α) (e : String × α)
    (h : e ∈ amodify l k f) :
    e ∈ l ∨ ∃ v, alookup l k = some v ∧ e = (k, f v) := by
  induction l with
  | nil => simp [amodify] at h
  | cons e' rest ih =>
    by_cases he : e'.1 = k
    · simp [amodify, he] at h
      rcases h with h | h
      · right; exact ⟨e'.2, by simp [alookup, he], by simp [h, he]⟩
      · left; simp [h]
    · simp [amodify, he] at h
      rcases h with h | h
      · left; simp [h]
      · rcases ih h with h' | ⟨v, hv, he2⟩
        · left; simp [h']
        · right; exact ⟨v, by simp [alookup, he, hv], he2⟩

theorem mem_aremove (l : List (String × α)) (k : String) (e : String × α)
    (h : e ∈ aremove l k) : e ∈ l ∧ e.1 ≠ k := by
  have := List.of_mem_filter h
  refine ⟨List.mem_of_mem_filter h, ?_⟩
  simpa using this

theorem mem_aremove_of_ne (l : List (String × α)) (k : String) (e : String × α)
    (he : e ∈ l) (hk : e.1 ≠ k) : e ∈ aremove l k := by
  refine List.mem_filter.2 ⟨he, by simpa using hk⟩

/-- Last `n` elements of a list (Python slice `l[-n:]` for `n > 0`). -/
def takeLast (n : Nat) (l : List α) : List α :=
  l.drop (l.length - n)

theorem takeLast_of_le (n : Nat) (l : List α) (h : l.length ≤ n) :
    takeLast n l = l := by
  simp [takeLast, Nat.sub_eq_zero_of_le h]

theorem takeLast_length (n : Nat) (l : List α) :
    (takeLast n l).length = min n l.length := by
  simp [takeLast]
  omega

theorem takeLast_append_takeLast (n : Nat) (l r : List α) :
    takeLast n (takeLast n l ++ r) = takeLast n (l ++ r) := by
  by_cases hl : l.length ≤ n
  · rw [takeLast_of_le n l hl]
  · have hn : n ≤ l.length := Nat.le_of_lt (Nat.lt_of_not_le hl)
    simp only [takeLast, List.drop_append_eq_append_drop, List.drop_drop,
      List.length_append, List.length_drop]
    congr 1
    · congr 1
      omega
    · congr 1
      omega

/-! ### Data model (`src/app/user_context/service.py`) -/

/-! Conversation states (class `ConversationState`, lines 10-20). -/

namespace ConversationState

def GREETING : String := "greeting"

def BROWSING : String := "browsing"

def PRODUCT_DETAILS : String := "product_details"

def CATEGORY_BROWSING : String := "category_browsing"

def CART_REVIEW : String := "cart_review"

def CHECKOUT : String := "checkout"

def PAYMENT : String := "payment"

def ORDER_CONFIRMATION : String := "order_confirmation"

def SUPPORT : String := "support"

def BUSINESS_SELECTION : String := "business_selection"

end ConversationState

/-- Product snapshot dictionary.  Only the keys read by the session manager
(`id`, `price`, `business_id`) are modelled; `business_id` is `Option` because
`product.get("business_id")` may be absent.  Prices are integers (the service
does arbitrary Python arithmetic on them; no rounding happens in the core). -/
structure Product where
  id : String
  price : Int
  business_id : Option String
deriving DecidableEq, Repr

/-- A cart entry: `{"product": ..., "quantity": ...}` (lines 352-355). -/
structure CartItem where
  product : Product
  quantity : Int
deriving DecidableEq, Repr

/-- A conversation-history entry (lines 308-312); the ISO timestamp string is
abstracted to the `Nat` tick at which it was generated. -/
structure Message where
  role : String
  content : String
  timestamp : Nat
deriving DecidableEq, Repr

/-- The session's `"data"` dictionary.  `cart = none` models the absence of the
`"cart"` key (the `_temp` placeholder's data has no cart; reads go through
`data.get("cart", [])`).  The keys never read by the embedded operations
(`user_info`, `viewed_products`, `selected_product`, `selected_category`,
`payment_info`, `preferences`) are omitted. -/
structure SessionData where
  cart : Option (List CartItem)
  selected_business : Option String
  business_id : Option String
deriving DecidableEq, Repr

/-- A session dictionary: `{"state": ..., "last_activity": ..., "data": ...}`. -/
structure Session where
  state : String
  last_activity : Nat
  data : SessionData
deriving DecidableEq, Repr

/-- The `UserContextService` in-memory state:
`user_sessions : {phone: {business_id: session}}` and
`conversation_history : {phone: {business_id: [message]}}` (lines 27-28). -/
structure Store where
  user_sessions : List (String × List (String × Session))
  conversation_history : List (String × List (String × List Message))
deriving DecidableEq, Repr

/-- `self.max_history_length` (line 31). -/
def max_history_length : Nat := 20

/-- `self.session_timeout_minutes` (line 34). -/
def session_timeout_minutes : Nat := 30

/-- Python truthiness of an optional string (`if business_id:`):
`None` and `""` are falsy. -/
def optTruthy : Option String → Bool
  | none => false
  | some s => if s = "" then false else true

/-- The temporary business-selection session (lines 58-65 and 118-125). -/
def freshTempSession (now : Nat) : Session :=
  { state := ConversationState.BUSINESS_SELECTION,
    last_activity := now,
    data := { cart := none, selected_business := none, business_id := none } }

/-- A newly created business-scoped session (lines 80-93). -/
def freshBusinessSession (now : Nat) (b : String) : Session :=
  { state := ConversationState.GREETING,
    last_activity := now,
    data := { cart := some [], selected_business := none, business_id := some b } }

/-- `self.user_sessions[phone][bid] = s`, creating the inner dict entry. -/
def setSession (st : Store) (phone bid : String) (s : Session) : Store :=
  { st with
      user_sessions := aset st.user_sessions phone
        (aset ((alookup st.user_sessions phone).getD []) bid s) }

/-- `self.conversation_history[phone][bid] = h`, creating entries as needed. -/
def setHistory (st : Store) (phone bid : String) (h : List Message) : Store :=
  { st with
      conversation_history := aset st.conversation_history phone
        (aset ((alookup st.conversation_history phone).getD []) bid h) }

/-- `self.user_sessions[phone].pop(bid, None)` (a no-op if absent). -/
def removeSession (st : Store) (phone bid : String) : Store :=
  { st with
      user_sessions := amodify st.user_sessions phone (fun l => aremove l bid) }

/-- `self.conversation_history[phone].pop(bid, None)`. -/
def removeHistory (st : Store) (phone bid : String) : Store :=
  { st with
      conversation_history := amodify st.conversation_history phone (fun l => aremove l bid) }

/-- Convenience read: the session stored for `(phone, bid)`. -/
def sessionAt (st : Store) (phone bid : String) : Option Session :=
  (alookup st.user_sessions phone).bind (fun l => alookup l bid)

/-- Convenience read: the history stored for `(phone, bid)`. -/
def historyAt (st : Store) (phone bid : String) : Option (List Message) :=
  (alookup st.conversation_history phone).bind (fun l => alookup l bid)

/-- `now - session["last_activity"] > timedelta(minutes=timeout)` (lines 137-140). -/
def sessionExpired (now timeout : Nat) (s : Session) : Bool :=
  decide (timeout < now - s.last_activity)

/-- Whether the session stored at `(phone, bid)` exists and is expired. -/
def expiredAt (now timeout : Nat) (st : Store) (phone bid : String) : Bool :=
  match alookup st.user_sessions phone with
  | some l =>
    match alookup l bid with
    | some s => sessionExpired now timeout s
    | none => false
  | none => false

/-- `_clean_expired_sessions` (lines 130-152): for every phone, every expired
business session (and its history) is removed; phones left with no sessions
lose their entry in both maps. -/
def cleanExpiredSessions (now timeout : Nat) (st : Store) : Store :=
  let us1 := st.user_sessions.map
    (fun pe => (pe.1, pe.2.filter (fun be => !(sessionExpired now timeout be.2))))
  let emptyPhone : String → Bool := fun p =>
    match alookup us1 p with
    | some l => l.isEmpty
    | none => false
  let ch1 := st.conversation_history.map
    (fun pe => (pe.1, pe.2.filter (fun be => !(expiredAt now timeout st pe.1 be.1))))
  { user_sessions := us1.filter (fun pe => !pe.2.isEmpty),
    conversation_history := ch1.filter (fun pe => !(emptyPhone pe.1)) }

/-- The loop body of `get_active_business_id` (lines 177-183): keep the key
with the strictly greatest `last_activity` seen so far. -/
def latest_step (acc : Option String × Nat) (be : String × Session) :
    Option String × Nat :=
  if acc.2 < be.2.last_activity then (some be.1, be.2.last_activity) else acc

/-- `get_active_business_id` (lines 154-185): the non-`_temp` business key with
the strictly latest `last_activity` (first key wins on ties; accumulator starts
at `datetime.min`, i.e. `0`). -/
def get_active_business_id (st : Store) (phone : String) : Option String :=
  match alookup st.user_sessions phone with
  | none => none
  | some l =>
    ((l.filter (fun be => !(be.1 == "_temp"))).foldl latest_step
      ((none : Option String), 0)).1

/-- The same lookup with the (unchanged) store threaded through: the source
method performs no writes, so the store component is returned as-is. -/
def get_active_business_full (st : Store) (phone : String) : Option String × Store :=
  (get_active_business_id st phone, st)

/-- Lines 56-68 and 117-128: install a fresh `_temp` session and an empty
`_temp` history and return the session.  The returned `String` is the key under
the phone at which the returned session is stored (modelling the dict alias
Python returns). -/
def createTempSession (now : Nat) (st : Store) (phone : String) :
    String × Session × Store :=
  let temp := freshTempSession now
  ("_temp", temp, setHistory (setSession st phone "_temp" temp) phone "_temp" [])

/-- Lines 109-128: return the first non-`_temp` business session, refreshing
its `last_activity`; otherwise create a fresh `_temp` session. -/
def gocFallback (now : Nat) (st : Store) (phone : String) :
    String × Session × Store :=
  let sessions := (alookup st.user_sessions phone).getD []
  match sessions.filter (fun be => !(be.1 == "_temp")) with
  | be :: _ =>
    let s1 := { be.2 with last_activity := now }
    (be.1, s1, setSession st phone be.1 s1)
  | [] => createTempSession now st phone

/-- Lines 75-107: the truthy-`business_id` branch: create the session if
absent (state `GREETING`, empty cart), initialise its history if absent,
refresh `last_activity`, and drop any `_temp` session and history. -/
def gocBusiness (now : Nat) (st : Store) (phone b : String) :
    String × Session × Store :=
  let sessions := (alookup st.user_sessions phone).getD []
  let s1 : Session :=
    match alookup sessions b with
    | some s => { s with last_activity := now }
    | none => freshBusinessSession now b
  let st1 := setSession st phone b s1
  let st2 :=
    if (alookup sessions b).isNone
        && (alookup ((alookup st1.conversation_history phone).getD []) b).isNone then
      setHistory st1 phone b []
    else st1
  let st3 := removeHistory (removeSession st2 phone "_temp") phone "_temp"
  (b, s1, st3)

/-- Lines 50-53: create the (empty) per-phone entries if the phone is new. -/
def gocEnsure (st : Store) (phone : String) : Store :=
  if (alookup st.user_sessions phone).isNone then
    { user_sessions := aset st.user_sessions phone [],
      conversation_history := aset st.conversation_history phone [] }
  else st

/-- `_get_or_create_session` (lines 36-128).  Returns the key under the phone
at which the session lives, the session, and the updated store. -/
def get_or_create_session (now timeout : Nat) (st : Store) (phone : String)
    (business_id : Option String) : String × Session × Store :=
  let st1 := cleanExpiredSessions now timeout st
  let st2 := gocEnsure st1 phone
  let sessions := (alookup st2.user_sessions phone).getD []
  if !(optTruthy business_id) && sessions.isEmpty then
    createTempSession now st2 phone
  else
    let bid2 :=
      if !(optTruthy business_id) && optTruthy (get_active_business_id st2 phone) then
        get_active_business_id st2 phone
      else business_id
    match bid2 with
    | some b => if b = "" then gocFallback now st2 phone else gocBusiness now st2 phone b
    | none => gocFallback now st2 phone

/-- `get_session` (lines 201-212) just delegates. -/
def get_session (now timeout : Nat) (st : Store) (phone : String)
    (business_id : Option String) : String × Session × Store :=
  get_or_create_session now timeout st phone business_id

/-- Append one message and trim to the newest `maxLen` (lines 307-316). -/
def append_message (maxLen : Nat) (history : List Message) (m : Message) :
    List Message :=
  let h := history ++ [m]
  if maxLen < h.length then takeLast maxLen h else h

/-- `add_message_to_history` (lines 280-316). -/
def add_message_to_history (now timeout : Nat) (st : Store)
    (phone role content : String) (business_id : Option String) : Store :=
  let bid := if optTruthy business_id then business_id
             else get_active_business_id st phone
  let r := get_or_create_session now timeout st phone bid
  let st1 := r.2.2
  let bstr := match bid with
              | none => "_temp"
              | some b => b
  let hist := (alookup ((alookup st1.conversation_history phone).getD []) bstr).getD []
  setHistory st1 phone bstr
    (append_message max_history_length hist { role := role, content := content, timestamp := now })

/-- The cart mutation inside `add_to_cart` (lines 343-355): bump the quantity
of the first entry whose product id matches, else append a new entry. -/
def add_item (cart : List CartItem) (product : Product) (quantity : Int) :
    List CartItem :=
  match cart with
  | [] => [{ product := product, quantity := quantity }]
  | it :: rest =>
    if it.product.id = product.id then
      { it with quantity := it.quantity + quantity } :: rest
    else it :: add_item rest product quantity

/-- `add_to_cart` (lines 318-360): resolve the business (explicit argument,
else active business, else the product's own `business_id`), get or create the
session, and apply `add_item` to its cart. -/
def add_to_cart (now timeout : Nat) (st : Store) (phone : String)
    (product : Product) (quantity : Int) (business_id : Option String) :
    List CartItem × Store :=
  let b1 := if optTruthy business_id then business_id
            else get_active_business_id st phone
  let b2 := if !(optTruthy b1) && optTruthy product.business_id then
              product.business_id
            else b1
  let r := get_or_create_session now timeout st phone b2
  let cart := r.2.1.data.cart.getD []
  let newCart := add_item cart product quantity
  let sess1 := { r.2.1 with data := { r.2.1.data with cart := some newCart } }
  (newCart, setSession r.2.2 phone r.1 sess1)

/-- `get_cart` (lines 410-426). -/
def get_cart (now timeout : Nat) (st : Store) (phone : String)
    (business_id : Option String) : List CartItem × Store :=
  let bid := if optTruthy business_id then business_id
             else get_active_business_id st phone
  let r := get_or_create_session now timeout st phone bid
  (r.2.1.data.cart.getD [], r.2.2)

/-- Result of `calculate_cart_total` (lines 450-454). -/
structure CartTotals where
  total : Int
  item_count : Int
  currency : String
deriving DecidableEq, Repr

/-- The accumulation loop of `calculate_cart_total` (lines 441-454). -/
def calculate_cart_total_core (cart : List CartItem) : CartTotals :=
  let r := cart.foldl
    (fun (acc : Int × Int) it =>
      (acc.1 + it.product.price * it.quantity, acc.2 + it.quantity))
    ((0 : Int), (0 : Int))
  { total := r.1, item_count := r.2, currency := "ZMW" }

/-- `calculate_cart_total` (lines 428-454): totals of the cart returned by
`get_cart`. -/
def calculate_cart_total (now timeout : Nat) (st : Store) (phone : String)
    (business_id : Option String) : CartTotals × Store :=
  let r := get_cart now timeout st phone business_id
  (calculate_cart_total_core r.1, r.2)

/-- `get_all_user_businesses` (lines 474-491): all non-`_temp` keys. -/
def get_all_user_businesses (st : Store) (phone : String) : List String :=
  match alookup st.user_sessions phone with
  | none => []
  | some l => (l.filter (fun be => !(be.1 == "_temp"))).map Prod.fst

/-- Modelled from the spec: the Session Store operation
`clear(phone, businessId?)` of spec §4.1/§6 has no counterpart anywhere in
`src` (the service only exposes `clear_cart`, which empties a cart).  Per the
spec's words it "removes one session, or all sessions for a phone if
`businessId` omitted"; the session's history is part of the session entity and
is removed with it. -/
def clear_session (st : Store) (phone : String) (business_id : Option String) :
    Store :=
  match business_id with
  | some b => removeHistory (removeSession st phone b) phone b
  | none =>
    { user_sessions := aremove st.user_sessions phone,
      conversation_history := aremove st.conversation_history phone }

/-! ### Cart-level lemmas -/

/-- Total quantity carried by entries with product id `pid`. -/
def qty_of (pid : String) (cart : List CartItem) : Int :=
  ((cart.filter (fun it => it.product.id == pid)).map (fun it => it.quantity)).sum

theorem add_item_of_not_mem (cart : List CartItem) (p : Product) (q : Int)
    (h : ∀ it ∈ cart, it.product.id ≠ p.id) :
    add_item cart p q = cart ++ [{ product := p, quantity := q }] := by
  induction cart with
  | nil => simp [add_item]
  | cons it rest ih =>
    have hit := h it (by simp)
    simp [add_item, hit, ih (fun it' h' => h it' (by simp [h']))]

theorem add_item_bump_last (cart : List CartItem) (p1 p2 : Product) (q1 q2 : Int)
    (hid : p2.id = p1.id) (h : ∀ it ∈ cart, it.product.id ≠ p1.id) :
    add_item (cart ++ [{ product := p1, quantity := q1 }]) p2 q2 =
      cart ++ [{ product := p1, quantity := q1 + q2 }] := by
  induction cart with
  | nil => simp [add_item, hid]
  | cons it rest ih =>
    have hit : it.product.id ≠ p2.id := by
      rw [hid]; exact h it (by simp)
    simp [add_item, hit, ih (fun it' h' => h it' (by simp [h']))]

theorem cart_total_foldl (cart : List CartItem) (a b : Int) :
    cart.foldl
      (fun (acc : Int × Int) it =>
        (acc.1 + it.product.price * it.quantity, acc.2 + it.quantity)) (a, b) =
      (a + ((cart.map (fun it => it.product.price * it.quantity)).sum),
       b + ((cart.map (fun it => it.quantity)).sum)) := by
  induction cart generalizing a b with
  | nil => simp
  | cons it rest ih => simp [ih]; constructor <;> ring

theorem calculate_cart_total_core_spec (cart : List CartItem) :
    calculate_cart_total_core cart =
      { total := (cart.map (fun it => it.product.price * it.quantity)).sum,
        item_count := (cart.map (fun it => it.quantity)).sum,
        currency := "ZMW" } := by
  unfold calculate_cart_total_core
  rw [cart_total_foldl]
  simp

/-! ### C1 -/

/-- C1 counterexample input: one business session with an empty cart. -/
def c1_product : Product := { id := "P1", price := 50, business_id := none }

def c1_store : Store :=
  { user_sessions :=
      [("u", [("B1",
        { state := ConversationState.GREETING, last_activity := 1,
          data := { cart := some [], selected_business := none,
                    business_id := some "B1" } })])],
    conversation_history := [("u", [("B1", [])])] }

/-- C1: the claim is false on the code.  `add_to_cart` performs no quantity
validation: called with quantity `0` on an empty cart it returns the cart with
a new entry of quantity `0` and stores it in the session — the non-positive
quantity is applied, not rejected, and the cart does not stay unchanged. -/
theorem add_to_cart_nonpositive_quantity_cex :
    (sessionAt c1_store "u" "B1").map (fun s => s.data.cart) = some (some []) ∧
    (add_to_cart 1 30 c1_store "u" c1_product 0 (some "B1")).1 =
      [{ product := c1_product, quantity := 0 }] ∧
    (sessionAt (add_to_cart 1 30 c1_store "u" c1_product 0 (some "B1")).2 "u" "B1").map
        (fun s => s.data.cart) =
      some (some [{ product := c1_product, quantity := 0 }]) :=
  ⟨rfl, rfl, rfl⟩

/-- C1 (amended): `add_to_cart` applies any quantity, positive or not, to the
cart: the total quantity recorded for the product's id grows by exactly the
given quantity (no clamping, no rejection) and entries for other product ids
are untouched. -/
theorem add_item_applies_any_quantity (cart : List CartItem) (p : Product) (q : Int) :
    qty_of p.id (add_item cart p q) = qty_of p.id cart + q ∧
    (add_item cart p q).filter (fun it => !(it.product.id == p.id)) =
      cart.filter (fun it => !(it.product.id == p.id)) := by
  induction cart with
  | nil => simp [add_item, qty_of]
  | cons it rest ih =>
    by_cases h : it.product.id = p.id
    · constructor
      · simp [add_item, h, qty_of, List.filter_cons]
        ring
      · simp [add_item, h, List.filter_cons]
    · constructor
      · simp [add_item, h, qty_of, List.filter_cons] at ih ⊢
        exact ih.1
      · simp [add_item, h, List.filter_cons] at ih ⊢
        exact ih.2

/-! ### C3 -/

/-- C3: adding the same product id twice (with snapshots `p1` then `p2`,
`p2.id = p1.id`) to a cart not already holding that id merges into a single
entry holding the *first* snapshot and quantity `q1 + q2`; the totals add
`p1.price * (q1 + q2)` (the first snapshot's price — `p2.price` is unused),
the item count is the sum of all quantities, and the currency is the fixed
`"ZMW"`. -/
theorem add_to_cart_merges_duplicate_product (cart : List CartItem)
    (p1 p2 : Product) (q1 q2 : Int) (hid : p2.id = p1.id)
    (hnot : ∀ it ∈ cart, it.product.id ≠ p1.id) :
    add_item (add_item cart p1 q1) p2 q2 =
      cart ++ [{ product := p1, quantity := q1 + q2 }] ∧
    ((add_item (add_item cart p1 q1) p2 q2).filter
        (fun it => it.product.id == p1.id)).length = 1 ∧
    (calculate_cart_total_core (add_item (add_item cart p1 q1) p2 q2)).total =
      (calculate_cart_total_core cart).total + p1.price * (q1 + q2) ∧
    (calculate_cart_total_core (add_item (add_item cart p1 q1) p2 q2)).item_count =
      (calculate_cart_total_core cart).item_count + (q1 + q2) ∧
    (calculate_cart_total_core (add_item (add_item cart p1 q1) p2 q2)).currency =
      "ZMW" := by
  have e1 : add_item cart p1 q1 = cart ++ [{ product := p1, quantity := q1 }] :=
    add_item_of_not_mem cart p1 q1 hnot
  have e2 : add_item (add_item cart p1 q1) p2 q2 =
      cart ++ [{ product := p1, quantity := q1 + q2 }] := by
    rw [e1]; exact add_item_bump_last cart p1 p2 q1 q2 hid hnot
  refine ⟨e2, ?_, ?_, ?_, ?_⟩
  · rw [e2, List.filter_append]
    have hc : cart.filter (fun it => it.product.id == p1.id) = [] := by
      rw [List.filter_eq_nil_iff]
      intro it hit
      simpa using hnot it hit
    simp [hc]
  · rw [e2, calculate_cart_total_core_spec, calculate_cart_total_core_spec]
    simp
  · rw [e2, calculate_cart_total_core_spec, calculate_cart_total_core_spec]
    simp
  · rw [e2, calculate_cart_total_core_spec]

/-- C3 witness: scenario 3 of the spec with a changed second snapshot price
(999) to make visible that the first snapshot's price (50) is the one used. -/
theorem add_to_cart_merges_duplicate_product_witness :
    add_item (add_item [] { id := "P1", price := 50, business_id := none } 2)
        { id := "P1", price := 999, business_id := none } 1 =
      [{ product := { id := "P1", price := 50, business_id := none },
         quantity := 3 }] ∧
    ((add_item (add_item [] { id := "P1", price := 50, business_id := none } 2)
        { id := "P1", price := 999, business_id := none } 1).filter
        (fun it => it.product.id == "P1")).length = 1 ∧
    (calculate_cart_total_core
      (add_item (add_item [] { id := "P1", price := 50, business_id := none } 2)
        { id := "P1", price := 999, business_id := none } 1)).total =
      (calculate_cart_total_core []).total + 50 * (2 + 1) ∧
    (calculate_cart_total_core
      (add_item (add_item [] { id := "P1", price := 50, business_id := none } 2)
        { id := "P1", price := 999, business_id := none } 1)).item_count =
      (calculate_cart_total_core []).item_count + (2 + 1) ∧
    (calculate_cart_total_core
      (add_item (add_item [] { id := "P1", price := 50, business_id := none } 2)
        { id := "P1", price := 999, business_id := none } 1)).currency = "ZMW" :=
  add_to_cart_merges_duplicate_product []
    { id := "P1", price := 50, business_id := none }
    { id := "P1", price := 999, business_id := none } 2 1 rfl
    (by intro it hit; simp at hit)

/-! ### C8 -/

/-- C8 (spec-modelled): `clear(phone, businessId)` removes exactly the session
(and its history) for that key, leaving every other key untouched;
`clear(phone)` with the business omitted removes all of the phone's sessions,
leaving other phones untouched. -/
theorem clear_session_spec (st : Store) (phone b : String) :
    sessionAt (clear_session st phone (some b)) phone b = none ∧
    historyAt (clear_session st phone (some b)) phone b = none ∧
    (∀ p' b', p' ≠ phone →
      sessionAt (clear_session st phone (some b)) p' b' = sessionAt st p' b') ∧
    (∀ b', b' ≠ b →
      sessionAt (clear_session st phone (some b)) phone b' = sessionAt st phone b') ∧
    (∀ b', sessionAt (clear_session st phone none) phone b' = none) ∧
    (∀ p' b', p' ≠ phone →
      sessionAt (clear_session st phone none) p' b' = sessionAt st p' b') := by
  refine ⟨?_, ?_, ?_, ?_, ?_, ?_⟩
  · simp only [clear_session, sessionAt, removeHistory, removeSession,
      alookup_amodify_self]
    cases alookup st.user_sessions phone with
    | none => rfl
    | some l => simp [alookup_aremove_self]
  · simp only [clear_session, historyAt, removeHistory, removeSession,
      alookup_amodify_self]
    cases alookup st.conversation_history phone with
    | none => rfl
    | some l => simp [alookup_aremove_self]
  · intro p' b' hp
    simp [clear_session, sessionAt, removeHistory, removeSession,
      alookup_amodify_ne _ _ _ _ (Ne.symm hp)]
  · intro b' hb
    simp only [clear_session, sessionAt, removeHistory, removeSession,
      alookup_amodify_self]
    cases alookup st.user_sessions phone with
    | none => rfl
    | some l => simp [alookup_aremove_ne _ _ _ (Ne.symm hb)]
  · intro b'
    simp [clear_session, sessionAt, alookup_aremove_self]
  · intro p' b' hp
    simp [clear_session, sessionAt, alookup_aremove_ne _ _ _ (Ne.symm hp)]

/-- C8 witness store: two phones, two businesses each. -/
def c8_store : Store :=
  { user_sessions :=
      [("p", [("B1", freshBusinessSession 1 "B1"), ("B2", freshBusinessSession 2 "B2")]),
       ("q", [("B1", freshBusinessSession 3 "B1")])],
    conversation_history := [("p", [("B1", []), ("B2", [])]), ("q", [("B1", [])])] }

/-- C8 witness: `clear` on `(p, B1)` removes exactly that session; `clear(p)`
removes all of p's sessions and leaves phone q untouched. -/
theorem clear_session_spec_witness :
    sessionAt (clear_session c8_store "p" (some "B1")) "p" "B1" = none ∧
    sessionAt (clear_session c8_store "p" (some "B1")) "q" "B1" =
      sessionAt c8_store "q" "B1" ∧
    sessionAt (clear_session c8_store "p" (some "B1")) "p" "B2" =
      sessionAt c8_store "p" "B2" ∧
    sessionAt (clear_session c8_store "p" none) "p" "B1" = none ∧
    sessionAt (clear_session c8_store "p" none) "q" "B1" =
      sessionAt c8_store "q" "B1" :=
  ⟨(clear_session_spec c8_store "p" "B1").1,
   (clear_session_spec c8_store "p" "B1").2.2.1 "q" "B1" (by decide),
   (clear_session_spec c8_store "p" "B1").2.2.2.1 "B2" (by decide),
   (clear_session_spec c8_store "p" "B1").2.2.2.2.1 "B1",
   (clear_session_spec c8_store "p" "B1").2.2.2.2.2 "q" "B1" (by decide)⟩

/-! ### C4 -/

theorem latest_foldl_snd_le (l : List (String × Session)) (acc : Option String × Nat) :
    acc.2 ≤ (l.foldl latest_step acc).2 := by
  induction l generalizing acc with
  | nil => simp
  | cons be rest ih =>
    simp only [List.foldl_cons]
    by_cases h : acc.2 < be.2.last_activity
    · exact Nat.le_trans (Nat.le_of_lt h) (by simpa [latest_step, h] using ih (some be.1, be.2.last_activity))
    · simpa [latest_step, h] using ih acc

theorem latest_foldl_mem_le (l : List (String × Session)) (acc : Option String × Nat)
    (be : String × Session) (h : be ∈ l) :
    be.2.last_activity ≤ (l.foldl latest_step acc).2 := by
  induction l generalizing acc with
  | nil => simp at h
  | cons be' rest ih =>
    simp only [List.foldl_cons]
    rcases List.mem_cons.1 h with h | h
    · subst h
      by_cases hlt : acc.2 < be.2.last_activity
      · simpa [latest_step, hlt] using latest_foldl_snd_le rest (some be.1, be.2.last_activity)
      · exact Nat.le_trans (Nat.le_of_not_lt hlt) (by simpa [latest_step, hlt] using latest_foldl_snd_le rest acc)
    · by_cases hlt : acc.2 < be'.2.last_activity <;>
        simpa [latest_step, hlt] using ih _ h

theorem latest_foldl_pair (l : List (String × Session)) (acc : Option String × Nat) :
    l.foldl latest_step acc = acc ∨
      ∃ be ∈ l, l.foldl latest_step acc = (some be.1, be.2.last_activity) := by
  induction l generalizing acc with
  | nil => left; rfl
  | cons be' rest ih =>
    simp only [List.foldl_cons]
    by_cases hlt : acc.2 < be'.2.last_activity
    · rcases ih (latest_step acc be') with h | ⟨be, hmem, h1⟩
      · right
        refine ⟨be', by simp, ?_⟩
        rw [h]; simp [latest_step, hlt]
      · right; exact ⟨be, by simp [hmem], h1⟩
    · rcases ih acc with h | ⟨be, hmem, h1⟩
      · left; simpa [latest_step, hlt] using h
      · right; exact ⟨be, by simp [hmem], by simpa [latest_step, hlt] using h1⟩

theorem alookup_mem (l : List (String × α)) (k : String) (v : α)
    (h : alookup l k = some v) : (k, v) ∈ l := by
  induction l with
  | nil => simp [alookup] at h
  | cons e rest ih =>
    by_cases he : e.1 = k
    · have hv : e.2 = v := by simpa [alookup, he] using h
      have : (k, v) = e := by cases e; simp_all
      simp [this]
    · have := ih (by simpa [alookup, he] using h)
      simp [this]

/-- C4: `get_active_business_id` is a pure lookup (the store is untouched);
when the phone is unknown, or when its only sessions are the `_temp`
placeholder, it returns `none`; otherwise (given the invariant that every
stored `last_activity` is a real timestamp, i.e. positive — `datetime.min`
is `0`) it returns a non-placeholder business whose `last_activity` is
maximal among the phone's non-placeholder sessions. -/
theorem get_active_business_id_spec (st : Store) (phone : String)
    (hpos : ∀ l, alookup st.user_sessions phone = some l →
      ∀ be ∈ l, 0 < be.2.last_activity) :
    (match alookup st.user_sessions phone with
     | none => get_active_business_id st phone = none
     | some l =>
       match get_active_business_id st phone with
       | none => l.filter (fun be => !(be.1 == "_temp")) = []
       | some b =>
         ∃ s, (b, s) ∈ l ∧ b ≠ "_temp" ∧
           ∀ be ∈ l.filter (fun be => !(be.1 == "_temp")),
             be.2.last_activity ≤ s.last_activity) ∧
    get_active_business_full st phone = (get_active_business_id st phone, st) := by
  refine ⟨?_, rfl⟩
  cases hl : alookup st.user_sessions phone with
  | none => simp [get_active_business_id, hl]
  | some l =>
    cases hr : get_active_business_id st phone with
    | none =>
      simp only []
      have hfold :
          ((l.filter (fun be => !(be.1 == "_temp"))).foldl latest_step (none, 0)).1 =
            none := by
        have h0 := hr
        simp only [get_active_business_id, hl] at h0
        exact h0
      rcases latest_foldl_pair (l.filter (fun be => !(be.1 == "_temp"))) (none, 0)
        with h | ⟨be, hmem, h1⟩
      · cases hfl : l.filter (fun be => !(be.1 == "_temp")) with
        | nil => rfl
        | cons be0 rest0 =>
          exfalso
          have hmem0 : be0 ∈ l.filter (fun be => !(be.1 == "_temp")) := by
            rw [hfl]; simp
          have hle := latest_foldl_mem_le
            (l.filter (fun be => !(be.1 == "_temp"))) (none, 0) be0 hmem0
          rw [h] at hle
          have hpos0 := hpos l hl be0 (List.mem_of_mem_filter hmem0)
          omega
      · exfalso
        rw [h1] at hfold
        simp at hfold
    | some b =>
      simp only []
      rcases latest_foldl_pair (l.filter (fun be => !(be.1 == "_temp"))) (none, 0)
        with h | ⟨be, hmem, h1⟩
      · exfalso
        have h0 := hr
        simp only [get_active_business_id, hl] at h0
        rw [h] at h0
        simp at h0
      · have h0 := hr
        simp only [get_active_business_id, hl] at h0
        rw [h1] at h0
        simp at h0
        refine ⟨be.2, ?_, ?_, ?_⟩
        · have : (be.1, be.2) ∈ l := by
            simpa using List.mem_of_mem_filter hmem
          rw [← h0]
          simpa using this
        · have := List.of_mem_filter hmem
          simp at this
          rw [← h0]
          exact this
        · intro be' hmem'
          have hle := latest_foldl_mem_le
            (l.filter (fun be => !(be.1 == "_temp"))) (none, 0) be' hmem'
          rw [h1] at hle
          exact hle

/-- C4 witness store: phone `u` has business `B1` (`last_activity` 10) and
`B2` (`last_activity` 15) plus a `_temp` placeholder. -/
def c4_store : Store :=
  { user_sessions :=
      [("u", [("B1", freshBusinessSession 10 "B1"),
              ("B2", freshBusinessSession 15 "B2"),
              ("_temp", freshTempSession 20)])],
    conversation_history := [("u", [("B1", []), ("B2", []), ("_temp", [])])] }

/-- C4 witness: on `c4_store` the active business is `B2` — the most recently
active non-placeholder session — and the store is returned unchanged. -/
theorem get_active_business_id_spec_witness :
    (∃ s, ("B2", s) ∈ [("B1", freshBusinessSession 10 "B1"),
                       ("B2", freshBusinessSession 15 "B2"),
                       ("_temp", freshTempSession 20)] ∧ "B2" ≠ "_temp" ∧
       ∀ be ∈ [("B1", freshBusinessSession 10 "B1"),
               ("B2", freshBusinessSession 15 "B2"),
               ("_temp", freshTempSession 20)].filter
           (fun be => !(be.1 == "_temp")),
         be.2.last_activity ≤ s.last_activity) ∧
    get_active_business_full c4_store "u" =
      (get_active_business_id c4_store "u", c4_store) :=
  get_active_business_id_spec c4_store "u" (by decide)

/-! ### C5 -/

/-- An entry of the phone map is "live" at `now`: it has at least one session
and none of its sessions is expired. -/
def liveEntry (now timeout : Nat) (pe : String × List (String × Session)) : Prop :=
  pe.2 ≠ [] ∧ ∀ be ∈ pe.2, sessionExpired now timeout be.2 = false

theorem mem_aset_self (l : List (String × α)) (k : String) (v : α) :
    (k, v) ∈ aset l k v := by
  induction l with
  | nil => simp [aset]
  | cons e rest ih =>
    by_cases h : e.1 = k <;> simp [aset, h, ih]

theorem liveEntry_clean (now timeout : Nat) (st : Store) :
    ∀ pe ∈ (cleanExpiredSessions now timeout st).user_sessions,
      liveEntry now timeout pe := by
  intro pe hpe
  simp only [cleanExpiredSessions] at hpe
  have h1 := List.mem_of_mem_filter hpe
  have h2 := List.of_mem_filter hpe
  constructor
  · intro hnil
    rw [hnil] at h2
    simp at h2
  · rcases List.mem_map.1 h1 with ⟨pe0, _, hpe0⟩
    intro be hbe
    rw [← hpe0] at hbe
    have := List.of_mem_filter hbe
    simpa using this

theorem liveEntry_aset (now timeout : Nat)
    (us : List (String × List (String × Session))) (phone : String)
    (E : List (String × Session))
    (hus : ∀ pe ∈ us, liveEntry now timeout pe)
    (hE : liveEntry now timeout (phone, E)) :
    ∀ pe ∈ aset us phone E, liveEntry now timeout pe := by
  intro pe hpe
  rcases mem_aset us phone E pe hpe with h | h
  · rw [h]; exact hE
  · exact hus pe h

theorem aset_gocEnsure (st : Store) (phone : String) (E : List (String × Session)) :
    aset (gocEnsure st phone).user_sessions phone E = aset st.user_sessions phone E := by
  unfold gocEnsure
  split
  · simp [aset_aset]
  · rfl

theorem gocEnsure_lookup_live (now timeout : Nat) (st : Store) (phone : String) :
    ∀ be ∈ (alookup (gocEnsure (cleanExpiredSessions now timeout st) phone).user_sessions
        phone).getD [],
      sessionExpired now timeout be.2 = false := by
  intro be hbe
  unfold gocEnsure at hbe
  split at hbe
  · rw [alookup_aset_self] at hbe
    simp at hbe
  · rename_i hsome
    cases hl : alookup (cleanExpiredSessions now timeout st).user_sessions phone with
    | none => rw [hl] at hbe; simp at hbe
    | some l =>
      rw [hl] at hbe
      simp only [Option.getD_some] at hbe
      have hmem := alookup_mem _ _ _ hl
      exact (liveEntry_clean now timeout st (phone, l) hmem).2 be hbe

theorem sessionExpired_now (now timeout : Nat) (s : Session)
    (h : s.last_activity = now) : sessionExpired now timeout s = false := by
  simp [sessionExpired, h]

theorem createTempSession_sweeps (now timeout : Nat) (st : Store) (phone : String) :
    ∀ pe ∈ (createTempSession now
        (gocEnsure (cleanExpiredSessions now timeout st) phone) phone).2.2.user_sessions,
      liveEntry now timeout pe := by
  intro pe hpe
  simp only [createTempSession, setHistory, setSession] at hpe
  rw [aset_gocEnsure] at hpe
  refine liveEntry_aset now timeout _ phone _ (liveEntry_clean now timeout st) ?_ pe hpe
  constructor
  · exact List.ne_nil_of_mem (mem_aset_self _ "_temp" (freshTempSession now))
  · intro be hbe
    rcases mem_aset _ _ _ _ hbe with h | h
    · rw [h]
      exact sessionExpired_now now timeout _ rfl
    · exact gocEnsure_lookup_live now timeout st phone be h

theorem gocFallback_sweeps (now timeout : Nat) (st : Store) (phone : String) :
    ∀ pe ∈ (gocFallback now
        (gocEnsure (cleanExpiredSessions now timeout st) phone) phone).2.2.user_sessions,
      liveEntry now timeout pe := by
  intro pe hpe
  simp only [gocFallback] at hpe
  split at hpe
  · rename_i be0 rest0 hfl
    simp only [setSession] at hpe
    rw [aset_gocEnsure] at hpe
    refine liveEntry_aset now timeout _ phone _ (liveEntry_clean now timeout st) ?_ pe hpe
    constructor
    · exact List.ne_nil_of_mem (mem_aset_self _ be0.1 _)
    · intro be hbe
      rcases mem_aset _ _ _ _ hbe with h | h
      · rw [h]
        exact sessionExpired_now now timeout _ rfl
      · exact gocEnsure_lookup_live now timeout st phone be h
  · exact createTempSession_sweeps now timeout st phone pe hpe

theorem gocBusiness_sweeps (now timeout : Nat) (st : Store) (phone b : String)
    (hb : b ≠ "_temp") :
    ∀ pe ∈ (gocBusiness now
        (gocEnsure (cleanExpiredSessions now timeout st) phone) phone b).2.2.user_sessions,
      liveEntry now timeout pe := by
  intro pe hpe
  unfold gocBusiness at hpe
  simp only [removeHistory, removeSession, setHistory, setSession,
    apply_ite (fun s : Store => s.user_sessions), ite_self] at hpe
  rw [aset_gocEnsure] at hpe
  generalize hS : (alookup (gocEnsure (cleanExpiredSessions now timeout st)
      phone).user_sessions phone).getD [] = S at hpe
  generalize hs1 : (match alookup S b with
    | some s => { s with last_activity := now }
    | none => freshBusinessSession now b) = s1 at hpe
  have hSlive : ∀ be ∈ S, sessionExpired now timeout be.2 = false := by
    rw [← hS]; exact gocEnsure_lookup_live now timeout st phone
  have hs1la : s1.last_activity = now := by
    rw [← hs1]; cases alookup S b <;> rfl
  have hE0 : liveEntry now timeout (phone, aset S b s1) := by
    constructor
    · exact List.ne_nil_of_mem (mem_aset_self S b s1)
    · intro be hbe
      rcases mem_aset S b s1 be hbe with h | h
      · rw [h]
        exact sessionExpired_now now timeout s1 hs1la
      · exact hSlive be h
  rcases mem_amodify _ _ _ _ hpe with h | ⟨v, hv, hpe2⟩
  · exact liveEntry_aset now timeout _ phone _ (liveEntry_clean now timeout st) hE0 pe h
  · rw [alookup_aset_self] at hv
    have hvE : v = aset S b s1 := (Option.some.inj hv).symm
    rw [hpe2, hvE]
    constructor
    · refine List.ne_nil_of_mem
        (mem_aremove_of_ne (aset S b s1) "_temp" (b, s1) (mem_aset_self S b s1) ?_)
      simpa using hb
    · intro be hbe
      exact hE0.2 be (mem_aremove _ _ _ hbe).1

theorem get_active_ne_temp (st : Store) (phone b : String)
    (h : get_active_business_id st phone = some b) : b ≠ "_temp" := by
  cases hl : alookup st.user_sessions phone with
  | none => simp [get_active_business_id, hl] at h
  | some l =>
    simp only [get_active_business_id, hl] at h
    rcases latest_foldl_pair (l.filter (fun be => !(be.1 == "_temp"))) (none, 0)
      with hp | ⟨be, hmem, h1⟩
    · rw [hp] at h; simp at h
    · rw [h1] at h
      simp only [Option.some.injEq] at h
      rw [← h]
      have := List.of_mem_filter hmem
      simpa using this

/-- C5: the claim is false on the code.  `_get_or_create_session` does start
with the expiry sweep, but `get_active_business_id` performs no sweep at all:
on a store whose only session is 70 minutes idle (timeout 30), the
active-business lookup leaves the store unchanged — the expired session is
still there (removing it would yield the empty store, a different store) and
is even returned as the active business, instead of being removed before the
operation as the claim requires. -/
theorem get_active_business_no_sweep_cex :
    (let c5_store : Store :=
      { user_sessions :=
          [("u", [("B1", freshBusinessSession 1 "B1")])],
        conversation_history := [("u", [("B1", [])])] }
     sessionExpired 100 session_timeout_minutes (freshBusinessSession 1 "B1") = true ∧
     get_active_business_full c5_store "u" = (some "B1", c5_store) ∧
     cleanExpiredSessions 100 session_timeout_minutes c5_store =
       { user_sessions := [], conversation_history := [] } ∧
     c5_store ≠ { user_sessions := [], conversation_history := [] }) := by
  refine ⟨by decide, rfl, by decide, by decide⟩

/-- C5 (amended): the expiry sweep runs at the start of get-or-create
(`get_session`/`_get_or_create_session`) — afterwards every phone entry in the
store is non-empty and holds no session whose idle time exceeds the timeout —
but the active-business lookup (`get_active_business_id`) performs no sweep and
returns the store unchanged. -/
theorem get_or_create_session_sweeps (now timeout : Nat) (st : Store)
    (phone : String) (bid : Option String) (hbid : bid ≠ some "_temp") :
    (∀ pe ∈ (get_or_create_session now timeout st phone bid).2.2.user_sessions,
      liveEntry now timeout pe) ∧
    (∀ s p, get_active_business_full s p = (get_active_business_id s p, s)) := by
  refine ⟨?_, fun s p => rfl⟩
  intro pe hpe
  simp only [get_or_create_session] at hpe
  split at hpe
  · exact createTempSession_sweeps now timeout st phone pe hpe
  · split at hpe
    · rename_i b heq
      split at hpe
      · exact gocFallback_sweeps now timeout st phone pe hpe
      · have hb : b ≠ "_temp" := by
          by_cases c2 : (!(optTruthy bid) &&
              optTruthy (get_active_business_id
                (gocEnsure (cleanExpiredSessions now timeout st) phone) phone)) = true
          · rw [if_pos c2] at heq
            exact get_active_ne_temp _ phone b heq
          · rw [if_neg c2] at heq
            intro hbt
            rw [heq, hbt] at hbid
            exact hbid rfl
        exact gocBusiness_sweeps now timeout st phone b hb pe hpe
    · exact gocFallback_sweeps now timeout st phone pe hpe

/-- C5 witness: a store holding one fresh and one expired session for another
phone; after `get_or_create_session` at `now = 100` (timeout 30) every
remaining entry is live. -/
theorem get_or_create_session_sweeps_witness :
    (∀ pe ∈ (get_or_create_session 100 30
        { user_sessions :=
            [("v", [("B1", freshBusinessSession 1 "B1"),
                    ("B2", freshBusinessSession 90 "B2")])],
          conversation_history := [("v", [("B1", []), ("B2", [])])] }
        "u" (some "B7")).2.2.user_sessions,
      liveEntry 100 30 pe) ∧
    (∀ s p, get_active_business_full s p = (get_active_business_id s p, s)) :=
  get_or_create_session_sweeps 100 30
    { user_sessions :=
        [("v", [("B1", freshBusinessSession 1 "B1"),
                ("B2", freshBusinessSession 90 "B2")])],
      conversation_history := [("v", [("B1", []), ("B2", [])])] }
    "u" (some "B7") (by decide)

/-! ### C7 -/

theorem gocEnsure_of_some (st : Store) (phone : String) (l : List (String × Session))
    (h : alookup st.user_sessions phone = some l) : gocEnsure st phone = st := by
  simp [gocEnsure, h]

theorem clean_lookup_us (now timeout : Nat) (st : Store) (phone : String)
    (l : List (String × Session))
    (h : alookup st.user_sessions phone = some l)
    (hne : l.filter (fun be => !(sessionExpired now timeout be.2)) ≠ []) :
    alookup (cleanExpiredSessions now timeout st).user_sessions phone =
      some (l.filter (fun be => !(sessionExpired now timeout be.2))) := by
  simp only [cleanExpiredSessions]
  have hmap : alookup
      (st.user_sessions.map
        (fun pe => (pe.1, pe.2.filter (fun be => !(sessionExpired now timeout be.2)))))
      phone =
      some (l.filter (fun be => !(sessionExpired now timeout be.2))) := by
    rw [alookup_map_val st.user_sessions
      (fun _ v => v.filter (fun be => !(sessionExpired now timeout be.2))) phone, h]
    rfl
  refine alookup_filter_of_kept _ _ phone _ hmap ?_
  simpa [List.isEmpty_iff] using hne

theorem clean_lookup_us_none (now timeout : Nat) (st : Store) (phone : String)
    (h : alookup st.user_sessions phone = none) :
    alookup (cleanExpiredSessions now timeout st).user_sessions phone = none := by
  simp only [cleanExpiredSessions]
  refine alookup_filter_of_none _ _ phone ?_
  rw [alookup_map_val st.user_sessions
    (fun _ v => v.filter (fun be => !(sessionExpired now timeout be.2))) phone, h]
  rfl

/-- C7 counterexample inputs: a phone whose only session is a non-expired
`_temp` placeholder carrying data (`selected_business = "X"`) and one history
message. -/
def c7_temp : Session :=
  { state := ConversationState.BUSINESS_SELECTION, last_activity := 5,
    data := { cart := none, selected_business := some "X", business_id := none } }

def c7_store : Store :=
  { user_sessions := [("ph", [("_temp", c7_temp)])],
    conversation_history :=
      [("ph", [("_temp", [{ role := "user", content := "hi", timestamp := 1 }])])] }

/-- C7: the claim is false on the code.  For a phone whose only session is a
non-expired `UNASSIGNED` placeholder, a repeated `getOrCreate(phone)` with no
business id does *not* return that placeholder unchanged: it installs and
returns a brand-new placeholder (different data — `selected_business` is reset
to `none`) and wipes the placeholder's conversation history. -/
theorem get_or_create_placeholder_cex :
    sessionExpired 5 session_timeout_minutes c7_temp = false ∧
    (get_or_create_session 5 session_timeout_minutes c7_store "ph" none).1 = "_temp" ∧
    (get_or_create_session 5 session_timeout_minutes c7_store "ph" none).2.1 ≠ c7_temp ∧
    sessionAt (get_or_create_session 5 session_timeout_minutes c7_store "ph" none).2.2
        "ph" "_temp" ≠ some c7_temp ∧
    historyAt (get_or_create_session 5 session_timeout_minutes c7_store "ph" none).2.2
        "ph" "_temp" = some [] :=
  ⟨rfl, rfl, by decide, by decide, rfl⟩

/-- C7 (amended): business-scoped sessions are destroyed only by the expiry
sweep (no clear exists), but the `UNASSIGNED` placeholder is also destroyed by
re-creation: whenever a phone's only session is a (non-expired) placeholder, a
repeated `getOrCreate(phone)` with no business id replaces it with a fresh
placeholder session (state `BUSINESS_SELECTION`, fresh data) and resets its
conversation history to empty. -/
theorem get_or_create_replaces_placeholder (now timeout : Nat) (st : Store)
    (phone : String) (t0 : Session)
    (hl : alookup st.user_sessions phone = some [("_temp", t0)])
    (hexp : sessionExpired now timeout t0 = false) :
    (get_or_create_session now timeout st phone none).1 = "_temp" ∧
    (get_or_create_session now timeout st phone none).2.1 = freshTempSession now ∧
    sessionAt (get_or_create_session now timeout st phone none).2.2 phone "_temp" =
      some (freshTempSession now) ∧
    historyAt (get_or_create_session now timeout st phone none).2.2 phone "_temp" =
      some [] := by
  have hclean : alookup (cleanExpiredSessions now timeout st).user_sessions phone =
      some [("_temp", t0)] := by
    have h0 := clean_lookup_us now timeout st phone [("_temp", t0)] hl
      (by simp [List.filter_cons, hexp])
    simpa [List.filter_cons, hexp] using h0
  have hens : gocEnsure (cleanExpiredSessions now timeout st) phone =
      cleanExpiredSessions now timeout st :=
    gocEnsure_of_some _ phone _ hclean
  have hact : get_active_business_id (cleanExpiredSessions now timeout st) phone =
      none := by
    simp [get_active_business_id, hclean, List.filter_cons]
  simp [get_or_create_session, hens, hclean, hact, optTruthy, gocFallback,
    createTempSession, setHistory, setSession, sessionAt, historyAt,
    alookup_aset_self, List.filter_cons]

/-- C7 witness: the amended behaviour on the concrete placeholder store. -/
theorem get_or_create_replaces_placeholder_witness :
    (get_or_create_session 5 session_timeout_minutes c7_store "ph" none).1 = "_temp" ∧
    (get_or_create_session 5 session_timeout_minutes c7_store "ph" none).2.1 =
      freshTempSession 5 ∧
    sessionAt (get_or_create_session 5 session_timeout_minutes c7_store "ph" none).2.2
      "ph" "_temp" = some (freshTempSession 5) ∧
    historyAt (get_or_create_session 5 session_timeout_minutes c7_store "ph" none).2.2
      "ph" "_temp" = some [] :=
  get_or_create_replaces_placeholder 5 session_timeout_minutes c7_store "ph" c7_temp
    (by decide) (by decide)

/-! ### C10 -/

theorem alookup_isSome_of_mem (l : List (String × α)) (k : String) (v : α)
    (h : (k, v) ∈ l) : ∃ w, alookup l k = some w := by
  induction l with
  | nil => simp at h
  | cons e rest ih =>
    by_cases he : e.1 = k
    · exact ⟨e.2, by simp [alookup, he]⟩
    · rcases List.mem_cons.1 h with h' | h'
      · exfalso; rw [← h'] at he; simp at he
      · rcases ih h' with ⟨w, hw⟩
        exact ⟨w, by simp [alookup, he, hw]⟩

theorem alookup_of_mem_nodup (l : List (String × α))
    (hnd : (l.map Prod.fst).Nodup) (k : String) (v : α) (h : (k, v) ∈ l) :
    alookup l k = some v := by
  induction l with
  | nil => simp at h
  | cons e rest ih =>
    rcases List.mem_cons.1 h with h' | h'
    · rw [← h']
      simp [alookup]
    · have he : e.1 ≠ k := by
        intro hk
        have : k ∈ rest.map Prod.fst := List.mem_map.2 ⟨(k, v), h', rfl⟩
        rw [List.map_cons, List.nodup_cons] at hnd
        exact hnd.1 (hk ▸ this)
      have : (rest.map Prod.fst).Nodup := by
        rw [List.map_cons, List.nodup_cons] at hnd
        exact hnd.2
      simp [alookup, he, ih this h']

theorem alookup_map_filter_cases (l : List (String × α)) (f : String → α → β)
    (p : String × β → Bool) (k : String) :
    alookup ((l.map (fun e => (e.1, f e.1 e.2))).filter p) k = none ∨
    ∃ v, (k, v) ∈ l ∧
      alookup ((l.map (fun e => (e.1, f e.1 e.2))).filter p) k = some (f k v) := by
  induction l with
  | nil => left; rfl
  | cons e rest ih =>
    simp only [List.map_cons, List.filter_cons]
    cases hp : p (e.1, f e.1 e.2) with
    | false =>
      rw [if_neg (by decide : ¬(false = true))]
      rcases ih with h | ⟨v, hv, h⟩
      · left; exact h
      · right; exact ⟨v, by simp [hv], h⟩
    | true =>
      simp only [if_pos rfl]
      by_cases he : e.1 = k
      · right
        refine ⟨e.2, ?_, ?_⟩
        · subst he; simp
        · subst he; simp [alookup]
      · rcases ih with h | ⟨v, hv, h⟩
        · left; simpa [alookup, he] using h
        · right; exact ⟨v, by simp [hv], by simpa [alookup, he] using h⟩

/-- Through the sweep and the ensure step, a key absent for a phone stays
absent (phone keys assumed duplicate-free, as for a Python dict). -/
theorem ensure_lookup_key_none (now timeout : Nat) (st : Store) (phone pb : String)
    (hnd : (st.user_sessions.map Prod.fst).Nodup)
    (habs : sessionAt st phone pb = none) :
    alookup ((alookup (gocEnsure (cleanExpiredSessions now timeout st)
        phone).user_sessions phone).getD []) pb = none := by
  unfold gocEnsure
  split
  · rw [alookup_aset_self]
    rfl
  · cases hcl : alookup (cleanExpiredSessions now timeout st).user_sessions phone with
    | none => simp [alookup]
    | some L =>
      simp only [Option.getD_some]
      have hcl' := hcl
      simp only [cleanExpiredSessions] at hcl'
      rcases alookup_map_filter_cases st.user_sessions
          (fun _ v => v.filter (fun be => !(sessionExpired now timeout be.2)))
          (fun pe => !pe.2.isEmpty) phone with h | ⟨v, hv, h⟩
      · rw [h] at hcl'; simp at hcl'
      · rw [h] at hcl'
        have hL : L = v.filter (fun be => !(sessionExpired now timeout be.2)) :=
          (Option.some.inj hcl').symm
        have hav : alookup st.user_sessions phone = some v :=
          alookup_of_mem_nodup st.user_sessions hnd phone v hv
        have hvpb : alookup v pb = none := by
          have := habs
          simp only [sessionAt, hav, Option.bind_some] at this
          exact this
        rw [hL]
        exact alookup_filter_of_none v _ pb hvpb

theorem goc_business_fresh (now timeout : Nat) (st : Store) (phone pb : String)
    (hpb1 : pb ≠ "") (hpb2 : pb ≠ "_temp")
    (hnone : alookup ((alookup (gocEnsure (cleanExpiredSessions now timeout st)
        phone).user_sessions phone).getD []) pb = none) :
    (get_or_create_session now timeout st phone (some pb)).1 = pb ∧
    (get_or_create_session now timeout st phone (some pb)).2.1 =
      freshBusinessSession now pb ∧
    ∃ L3, alookup (get_or_create_session now timeout st phone
        (some pb)).2.2.user_sessions phone = some L3 ∧
      alookup L3 pb = some (freshBusinessSession now pb) ∧
      alookup L3 "_temp" = none := by
  have hot : optTruthy (some pb) = true := by simp [optTruthy, hpb1]
  simp only [get_or_create_session, hot, Bool.not_true, Bool.false_and,
    if_neg (by decide : ¬(false = true)), if_neg hpb1]
  simp only [gocBusiness, hnone, removeHistory, removeSession, setHistory, setSession,
    apply_ite (fun s : Store => s.user_sessions), ite_self]
  refine ⟨trivial, trivial,
    aremove (aset ((alookup (gocEnsure (cleanExpiredSessions now timeout st)
      phone).user_sessions phone).getD []) pb (freshBusinessSession now pb)) "_temp",
    ?_, ?_, ?_⟩
  · rw [alookup_amodify_self, alookup_aset_self]
    rfl
  · rw [alookup_aremove_ne _ _ _ (fun h => hpb2 h.symm), alookup_aset_self]
  · exact alookup_aremove_self _ "_temp"

/-- C10: when `add_to_cart` is called without a business id, the phone has no
active business (falsy lookup), and the product snapshot carries its own
(truthy, non-placeholder) `business_id`, the item is added to the session for
the product's `business_id`: that session is created in state `GREETING` with
the item as its cart, and the phone holds no `_temp` placeholder afterwards
(the keys of the phone map are assumed duplicate-free, as for a Python dict;
`habs` says the product's business has no session yet). -/
theorem add_to_cart_uses_product_business_id (now timeout : Nat) (st : Store)
    (phone : String) (p : Product) (q : Int) (pb : String)
    (hpb : p.business_id = some pb) (hpb1 : pb ≠ "") (hpb2 : pb ≠ "_temp")
    (hact : optTruthy (get_active_business_id st phone) = false)
    (hnd : (st.user_sessions.map Prod.fst).Nodup)
    (habs : sessionAt st phone pb = none) :
    (add_to_cart now timeout st phone p q none).1 =
      [{ product := p, quantity := q }] ∧
    (sessionAt (add_to_cart now timeout st phone p q none).2 phone pb).map
        (fun s => (s.state, s.data.cart)) =
      some (ConversationState.GREETING, some [{ product := p, quantity := q }]) ∧
    sessionAt (add_to_cart now timeout st phone p q none).2 phone "_temp" = none := by
  obtain ⟨hk, hs, L3, hL3, hL3pb, hL3t⟩ :=
    goc_business_fresh now timeout st phone pb hpb1 hpb2
      (ensure_lookup_key_none now timeout st phone pb hnd habs)
  have hot : optTruthy (some pb) = true := by simp [optTruthy, hpb1]
  have e1 : optTruthy (none : Option String) = false := rfl
  simp only [add_to_cart, e1, hact, hpb, hot, Bool.not_false, Bool.true_and,
    Bool.false_eq_true, eq_self_iff_true, if_false, if_true, hk, hs, hL3]
  refine ⟨by simp [freshBusinessSession, add_item], ?_, ?_⟩
  · simp only [sessionAt, setSession, alookup_aset_self, hL3, Option.getD_some,
      Option.bind_some, freshBusinessSession, add_item]
    simp [alookup_aset_self]
  · simp only [sessionAt, setSession, alookup_aset_self, hL3, Option.getD_some,
      Option.some_bind]
    rw [alookup_aset_ne _ _ _ _ (fun h => hpb2 h), hL3t]

/-- C10 witness: on the empty store, adding product `P9` of business `B9`
with no business argument creates the `B9` session in state `GREETING` holding
the item, and no placeholder exists. -/
theorem add_to_cart_uses_product_business_id_witness :
    (add_to_cart 5 30 { user_sessions := [], conversation_history := [] } "zz"
        { id := "P9", price := 7, business_id := some "B9" } 2 none).1 =
      [{ product := { id := "P9", price := 7, business_id := some "B9" },
         quantity := 2 }] ∧
    (sessionAt (add_to_cart 5 30 { user_sessions := [], conversation_history := [] }
          "zz" { id := "P9", price := 7, business_id := some "B9" } 2 none).2
        "zz" "B9").map (fun s => (s.state, s.data.cart)) =
      some (ConversationState.GREETING,
        some [{ product := { id := "P9", price := 7, business_id := some "B9" },
                quantity := 2 }]) ∧
    sessionAt (add_to_cart 5 30 { user_sessions := [], conversation_history := [] }
        "zz" { id := "P9", price := 7, business_id := some "B9" } 2 none).2
      "zz" "_temp" = none :=
  add_to_cart_uses_product_business_id 5 30
    { user_sessions := [], conversation_history := [] } "zz"
    { id := "P9", price := 7, business_id := some "B9" } 2 "B9"
    rfl (by decide) (by decide) rfl (by decide) rfl

/-! ### C2 -/

theorem append_message_length_le (n : Nat) (h : List Message) (m : Message) :
    (append_message n h m).length ≤ max n (h.length + 1) := by
  simp only [append_message]
  split
  · rw [takeLast_length]
    simp [List.length_append]
  · rename_i hl
    simp only [List.length_append] at hl ⊢
    simp at hl ⊢

theorem append_message_eq_takeLast (n : Nat) (h : List Message) (m : Message) :
    append_message n h m = takeLast n (h ++ [m]) := by
  simp only [append_message]
  split
  · rfl
  · rename_i hl
    exact (takeLast_of_le n _ (Nat.le_of_not_lt hl)).symm

theorem append_message_foldl (n : Nat) (init : List Message) (msgs : List Message)
    (h : init.length ≤ n) :
    msgs.foldl (append_message n) init = takeLast n (init ++ msgs) := by
  induction msgs generalizing init with
  | nil => simp [takeLast_of_le n init h]
  | cons m rest ih =>
    simp only [List.foldl_cons]
    rw [append_message_eq_takeLast n init m]
    have hlen2 : (takeLast n (init ++ [m])).length ≤ n := by
      rw [takeLast_length]; omega
    rw [ih _ hlen2, takeLast_append_takeLast]
    simp

/-- C2: the claim is false on the code for the `UNASSIGNED` placeholder
session.  Appending two messages to a fresh phone with no business id leaves a
history containing only the second message — the retained entries are not the
most recently appended 20 messages, because each append re-creates the
placeholder session (resetting the history) before appending. -/
theorem add_message_placeholder_reset_cex :
    historyAt
        (add_message_to_history 1 30
          (add_message_to_history 1 30
            { user_sessions := [], conversation_history := [] }
            "p" "user" "m1" none)
          "p" "user" "m2" none) "p" "_temp" =
      some [{ role := "user", content := "m2", timestamp := 1 }] ∧
    historyAt
        (add_message_to_history 1 30
          (add_message_to_history 1 30
            { user_sessions := [], conversation_history := [] }
            "p" "user" "m1" none)
          "p" "user" "m2" none) "p" "_temp" ≠
      some [{ role := "user", content := "m1", timestamp := 1 },
            { role := "user", content := "m2", timestamp := 1 }] :=
  ⟨rfl, by decide⟩

theorem clean_lookup_ch_none (now timeout : Nat) (st : Store) (phone : String)
    (h : alookup st.conversation_history phone = none) :
    alookup (cleanExpiredSessions now timeout st).conversation_history phone = none := by
  simp only [cleanExpiredSessions]
  refine alookup_filter_of_none _ _ phone ?_
  rw [alookup_map_val st.conversation_history
    (fun k v => v.filter (fun be => !(expiredAt now timeout st k be.1))) phone, h]
  rfl

theorem clean_lookup_ch (now timeout : Nat) (st : Store) (phone : String)
    (hl : List (String × List Message)) (l : List (String × Session))
    (hch : alookup st.conversation_history phone = some hl)
    (hus : alookup st.user_sessions phone = some l)
    (hne : l.filter (fun be => !(sessionExpired now timeout be.2)) ≠ []) :
    alookup (cleanExpiredSessions now timeout st).conversation_history phone =
      some (hl.filter (fun be => !(expiredAt now timeout st phone be.1))) := by
  simp only [cleanExpiredSessions]
  have hmap : alookup
      (st.conversation_history.map
        (fun pe => (pe.1, pe.2.filter (fun be => !(expiredAt now timeout st pe.1 be.1)))))
      phone =
      some (hl.filter (fun be => !(expiredAt now timeout st phone be.1))) := by
    rw [alookup_map_val st.conversation_history
      (fun k v => v.filter (fun be => !(expiredAt now timeout st k be.1))) phone, hch]
    rfl
  refine alookup_filter_of_kept _ _ phone _ hmap ?_
  have hus1 : alookup
      (st.user_sessions.map
        (fun pe => (pe.1, pe.2.filter (fun be => !(sessionExpired now timeout be.2)))))
      phone =
      some (l.filter (fun be => !(sessionExpired now timeout be.2))) := by
    rw [alookup_map_val st.user_sessions
      (fun _ v => v.filter (fun be => !(sessionExpired now timeout be.2))) phone, hus]
    rfl
  simp only [hus1]
  simpa [List.isEmpty_iff] using hne

theorem append_message_length_le_max (n : Nat) (h : List Message) (m : Message) :
    (append_message n h m).length ≤ n := by
  rw [append_message_eq_takeLast n h m, takeLast_length]
  exact Nat.min_le_left _ _

/-- Invariant threaded through repeated `add_message_to_history` calls with an
explicit business id `b`: the `(phone, b)` session exists with `last_activity`
refreshed to `now`, and the stored history for `(phone, b)` is exactly `h`
with at most `max_history_length` entries. -/
def HistInv (now timeout : Nat) (phone b : String) (st : Store)
    (h : List Message) : Prop :=
  (∃ l sess, alookup st.user_sessions phone = some l ∧ alookup l b = some sess ∧
    sess.last_activity = now) ∧
  (∃ hl, alookup st.conversation_history phone = some hl ∧ alookup hl b = some h) ∧
  h.length ≤ max_history_length

theorem add_message_to_history_step (now timeout : Nat) (phone b : String)
    (st : Store) (h : List Message) (role content : String)
    (hB1 : b ≠ "") (hB2 : b ≠ "_temp")
    (hinv : HistInv now timeout phone b st h) :
    HistInv now timeout phone b
      (add_message_to_history now timeout st phone role content (some b))
      (append_message max_history_length h
        { role := role, content := content, timestamp := now }) := by
  obtain ⟨⟨l, sess, hl, hlb, hla⟩, ⟨hcl, hch, hchb⟩, hlen⟩ := hinv
  have hot : optTruthy (some b) = true := by simp [optTruthy, hB1]
  have hsesslive : sessionExpired now timeout sess = false := sessionExpired_now _ _ _ hla
  have hkept : alookup (l.filter (fun be => !(sessionExpired now timeout be.2))) b =
      some sess :=
    alookup_filter_of_kept l _ b sess hlb (by simp [hsesslive])
  have hfne : l.filter (fun be => !(sessionExpired now timeout be.2)) ≠ [] :=
    alookup_isSome_ne_nil _ b sess hkept
  have hclu : alookup (cleanExpiredSessions now timeout st).user_sessions phone =
      some (l.filter (fun be => !(sessionExpired now timeout be.2))) :=
    clean_lookup_us now timeout st phone l hl hfne
  have hens : gocEnsure (cleanExpiredSessions now timeout st) phone =
      cleanExpiredSessions now timeout st := gocEnsure_of_some _ _ _ hclu
  have hclc : alookup (cleanExpiredSessions now timeout st).conversation_history phone =
      some (hcl.filter (fun be => !(expiredAt now timeout st phone be.1))) :=
    clean_lookup_ch now timeout st phone hcl l hch hl hfne
  have hexpb : expiredAt now timeout st phone b = false := by
    simp [expiredAt, hl, hlb, hsesslive]
  have hchkept : alookup (hcl.filter (fun be => !(expiredAt now timeout st phone be.1)))
      b = some h := by
    rw [alookup_filter_key hcl (fun k => !(expiredAt now timeout st phone k)) b, hexpb]
    simp [hchb]
  have hbt : ¬ b = "_temp" := hB2
  have hbt' : ¬ "_temp" = b := fun hh => hB2 hh.symm
  simp only [add_message_to_history, get_or_create_session, hot, eq_self_iff_true,
    if_true, Bool.not_true, Bool.false_and, Bool.false_eq_true, if_false,
    if_neg hB1, hens, gocBusiness, hclu, Option.getD_some, hkept,
    Option.isNone_some, removeHistory, removeSession, setHistory, setSession,
    alookup_amodify_self, hclc, Option.map_some, Option.getD_some]
  simp only [Option.map_some', Option.getD_some]
  rw [alookup_aremove_ne _ _ _ hbt', hchkept]
  simp only [Option.getD_some, HistInv]
  refine ⟨⟨aremove (aset (List.filter (fun be => !(sessionExpired now timeout be.2)) l)
        b { state := sess.state, last_activity := now, data := sess.data }) "_temp",
      { state := sess.state, last_activity := now, data := sess.data }, ?_, ?_, rfl⟩,
    ⟨aset (aremove (List.filter (fun be => !(expiredAt now timeout st phone be.1)) hcl)
        "_temp") b (append_message max_history_length h
          { role := role, content := content, timestamp := now }), ?_, ?_⟩,
    append_message_length_le_max _ _ _⟩
  · rw [alookup_amodify_self, alookup_aset_self]
    rfl
  · rw [alookup_aremove_ne _ _ _ hbt', alookup_aset_self]
  · exact alookup_aset_self _ _ _
  · exact alookup_aset_self _ _ _

theorem add_message_to_history_base (now timeout : Nat) (phone b : String)
    (st : Store) (role content : String)
    (hB1 : b ≠ "") (hB2 : b ≠ "_temp")
    (hus : alookup st.user_sessions phone = none)
    (hch : alookup st.conversation_history phone = none) :
    HistInv now timeout phone b
      (add_message_to_history now timeout st phone role content (some b))
      [{ role := role, content := content, timestamp := now }] := by
  have hot : optTruthy (some b) = true := by simp [optTruthy, hB1]
  have hclu := clean_lookup_us_none now timeout st phone hus
  have hclc := clean_lookup_ch_none now timeout st phone hch
  have hbt' : ¬ "_temp" = b := fun hh => hB2 hh.symm
  simp only [add_message_to_history, get_or_create_session, gocEnsure, gocBusiness,
    hot, hclu, hclc, Option.isNone_none, Option.isNone_some, eq_self_iff_true,
    if_true, if_false, Bool.not_true, Bool.false_and, Bool.false_eq_true,
    Bool.true_and, Bool.and_self, if_neg hB1, alookup_aset_self, aset_aset,
    Option.getD_some, removeHistory, removeSession, setHistory, setSession,
    alookup_amodify_self, Option.map_some', alookup, aset, List.isEmpty_nil,
    append_message, HistInv]
  have har1 : aremove [(b, freshBusinessSession now b)] "_temp" =
      [(b, freshBusinessSession now b)] := by
    simp [aremove, List.filter_cons, hB2]
  have har2 : aremove [(b, ([] : List Message))] "_temp" =
      [(b, ([] : List Message))] := by
    simp [aremove, List.filter_cons, hB2]
  rw [har1, har2]
  simp [alookup, aset, max_history_length, freshBusinessSession]

theorem add_message_to_history_fold (now timeout : Nat) (phone b : String)
    (msgs : List (String × String)) (st : Store) (h : List Message)
    (hB1 : b ≠ "") (hB2 : b ≠ "_temp")
    (hinv : HistInv now timeout phone b st h) :
    HistInv now timeout phone b
      (msgs.foldl (fun s rc =>
        add_message_to_history now timeout s phone rc.1 rc.2 (some b)) st)
      (msgs.foldl (fun hh rc => append_message max_history_length hh
        { role := rc.1, content := rc.2, timestamp := now }) h) := by
  induction msgs generalizing st h with
  | nil => exact hinv
  | cons rc rest ih =>
    simp only [List.foldl_cons]
    exact ih _ _ (add_message_to_history_step now timeout phone b st h rc.1 rc.2
      hB1 hB2 hinv)

/-- C2 (amended): the bounded-history property holds for business-scoped
sessions addressed with their explicit business id (`b ∉ {"", "_temp"}`):
starting from a phone unknown to the store, after any sequence of
`add_message_to_history` calls for `(phone, b)` the stored history is exactly
the most recently appended `max_history_length = 20` messages in append order,
and never exceeds 20.  (For the `UNASSIGNED` placeholder the property fails:
each append re-creates the placeholder and resets its history, so only the
latest message is retained — see the counterexample.) -/
theorem add_message_to_history_keeps_last_twenty (now timeout : Nat)
    (st : Store) (phone b : String) (msgs : List (String × String))
    (hB1 : b ≠ "") (hB2 : b ≠ "_temp")
    (hus : alookup st.user_sessions phone = none)
    (hch : alookup st.conversation_history phone = none) :
    (historyAt (msgs.foldl (fun s rc =>
        add_message_to_history now timeout s phone rc.1 rc.2 (some b)) st)
        phone b).getD [] =
      takeLast max_history_length
        (msgs.map (fun rc =>
          ({ role := rc.1, content := rc.2, timestamp := now } : Message))) ∧
    ((historyAt (msgs.foldl (fun s rc =>
        add_message_to_history now timeout s phone rc.1 rc.2 (some b)) st)
        phone b).getD []).length ≤ max_history_length := by
  cases msgs with
  | nil =>
    constructor
    · simp [historyAt, hch, takeLast]
    · simp [historyAt, hch]
  | cons rc rest =>
    have hbase := add_message_to_history_base now timeout phone b st rc.1 rc.2
      hB1 hB2 hus hch
    have hfold := add_message_to_history_fold now timeout phone b rest _ _
      hB1 hB2 hbase
    obtain ⟨-, ⟨hl2, hch2, hchb2⟩, hlen2⟩ := hfold
    simp only [List.foldl_cons]
    have hH : historyAt (rest.foldl (fun s rc =>
        add_message_to_history now timeout s phone rc.1 rc.2 (some b))
          (add_message_to_history now timeout st phone rc.1 rc.2 (some b)))
        phone b =
        some (rest.foldl (fun hh rc => append_message max_history_length hh
          { role := rc.1, content := rc.2, timestamp := now })
          [{ role := rc.1, content := rc.2, timestamp := now }]) := by
      simp [historyAt, hch2, hchb2]
    rw [hH]
    have hfoldmap : rest.foldl (fun hh rc => append_message max_history_length hh
          { role := rc.1, content := rc.2, timestamp := now })
          [{ role := rc.1, content := rc.2, timestamp := now }] =
        List.foldl (append_message max_history_length)
          [{ role := rc.1, content := rc.2, timestamp := now }]
          (rest.map (fun rc =>
            ({ role := rc.1, content := rc.2, timestamp := now } : Message))) := by
      rw [List.foldl_map]
    constructor
    · simp only [Option.getD_some]
      rw [hfoldmap, append_message_foldl _ _ _ (by simp [max_history_length])]
      simp
    · simp only [Option.getD_some]
      rw [hfoldmap, append_message_foldl _ _ _ (by simp [max_history_length]),
        takeLast_length]
      exact Nat.min_le_left _ _

/-- C2 witness: two appends for `(p, B1)` on the empty store retain both
messages in order. -/
theorem add_message_to_history_keeps_last_twenty_witness :
    (historyAt ([("user", "m1"), ("assistant", "m2")].foldl (fun s rc =>
        add_message_to_history 1 30 s "p" rc.1 rc.2 (some "B1"))
        { user_sessions := [], conversation_history := [] })
        "p" "B1").getD [] =
      takeLast max_history_length
        ([("user", "m1"), ("assistant", "m2")].map (fun rc =>
          ({ role := rc.1, content := rc.2, timestamp := 1 } : Message))) ∧
    ((historyAt ([("user", "m1"), ("assistant", "m2")].foldl (fun s rc =>
        add_message_to_history 1 30 s "p" rc.1 rc.2 (some "B1"))
        { user_sessions := [], conversation_history := [] })
        "p" "B1").getD []).length ≤ max_history_length :=
  add_message_to_history_keeps_last_twenty 1 30
    { user_sessions := [], conversation_history := [] } "p" "B1"
    [("user", "m1"), ("assistant", "m2")] (by decide) (by decide) rfl rfl

/-! ### C6 -/

theorem goc_none_fresh (now timeout : Nat) (st : Store) (phone : String)
    (habs : alookup st.user_sessions phone = none) :
    (get_or_create_session now timeout st phone none).1 = "_temp" ∧
    (get_or_create_session now timeout st phone none).2.1 = freshTempSession now ∧
    alookup (get_or_create_session now timeout st phone none).2.2.user_sessions
      phone = some [("_temp", freshTempSession now)] ∧
    alookup (get_or_create_session now timeout st phone
      none).2.2.conversation_history phone = some [("_temp", [])] := by
  have hclu := clean_lookup_us_none now timeout st phone habs
  simp only [get_or_create_session, gocEnsure, hclu, Option.isNone_none,
    eq_self_iff_true, if_true, alookup_aset_self, Option.getD_some,
    List.isEmpty_nil, optTruthy, Bool.not_false, Bool.true_and,
    createTempSession, setHistory, setSession, aset_aset, aset]
  refine ⟨?_, ?_, ?_, ?_⟩ <;> simp [alookup_aset_self]

theorem goc_business_over_temp (now timeout : Nat) (st : Store) (phone B : String)
    (t0 : Session) (hB1 : B ≠ "") (hB2 : B ≠ "_temp")
    (hl : alookup st.user_sessions phone = some [("_temp", t0)])
    (hexp : sessionExpired now timeout t0 = false) :
    (get_or_create_session now timeout st phone (some B)).1 = B ∧
    (get_or_create_session now timeout st phone (some B)).2.1 =
      freshBusinessSession now B ∧
    alookup (get_or_create_session now timeout st phone
      (some B)).2.2.user_sessions phone =
      some [(B, freshBusinessSession now B)] := by
  have hclean : alookup (cleanExpiredSessions now timeout st).user_sessions phone =
      some [("_temp", t0)] := by
    have h0 := clean_lookup_us now timeout st phone [("_temp", t0)] hl
      (by simp [List.filter_cons, hexp])
    simpa [List.filter_cons, hexp] using h0
  have hens := gocEnsure_of_some _ phone _ hclean
  have hot : optTruthy (some B) = true := by simp [optTruthy, hB1]
  have htB : alookup [("_temp", t0)] B = none := by
    simp [alookup, show ¬"_temp" = B from fun hh => hB2 hh.symm]
  have hsetB : aset [("_temp", t0)] B (freshBusinessSession now B) =
      [("_temp", t0), (B, freshBusinessSession now B)] := by
    simp [aset, show ¬"_temp" = B from fun hh => hB2 hh.symm]
  have hremB : aremove [("_temp", t0), (B, freshBusinessSession now B)] "_temp" =
      [(B, freshBusinessSession now B)] := by
    simp [aremove, List.filter_cons, hB2]
  simp only [get_or_create_session, hens, hclean, hot, Bool.not_true,
    Bool.false_and, Bool.false_eq_true, if_false, if_neg hB1, gocBusiness,
    Option.getD_some, htB, Option.isNone_none, Bool.true_and,
    removeHistory, removeSession, setHistory, setSession,
    apply_ite (fun s : Store => s.user_sessions), ite_self,
    alookup_amodify_self, alookup_aset_self, Option.map_some', hsetB, hremB]
  exact ⟨trivial, trivial, trivial⟩

/-- C6: on a phone with no prior sessions, `getOrCreate(phone)` returns the
`_temp` (UNASSIGNED) placeholder in state `BUSINESS_SELECTION`; a subsequent
`getOrCreate(phone, B)` (same tick) creates a new session for `B` in state
`GREETING`, discards the placeholder, and `get_all_user_businesses(phone)`
returns exactly `[B]`. -/
theorem get_or_create_business_selection_flow (now timeout : Nat) (st : Store)
    (phone B : String) (hB1 : B ≠ "") (hB2 : B ≠ "_temp")
    (habs : alookup st.user_sessions phone = none) :
    (get_or_create_session now timeout st phone none).1 = "_temp" ∧
    (get_or_create_session now timeout st phone none).2.1.state =
      ConversationState.BUSINESS_SELECTION ∧
    (get_or_create_session now timeout
      (get_or_create_session now timeout st phone none).2.2 phone (some B)).1 = B ∧
    (get_or_create_session now timeout
      (get_or_create_session now timeout st phone none).2.2 phone
        (some B)).2.1.state = ConversationState.GREETING ∧
    sessionAt (get_or_create_session now timeout
      (get_or_create_session now timeout st phone none).2.2 phone
        (some B)).2.2 phone "_temp" = none ∧
    get_all_user_businesses (get_or_create_session now timeout
      (get_or_create_session now timeout st phone none).2.2 phone
        (some B)).2.2 phone = [B] := by
  obtain ⟨h1, h2, h3, h4⟩ := goc_none_fresh now timeout st phone habs
  obtain ⟨g1, g2, g3⟩ := goc_business_over_temp now timeout _ phone B
    (freshTempSession now) hB1 hB2 h3 (sessionExpired_now _ _ _ rfl)
  refine ⟨h1, by rw [h2]; rfl, g1, by rw [g2]; rfl, ?_, ?_⟩
  · simp [sessionAt, g3, alookup, show ¬B = "_temp" from hB2]
  · simp [get_all_user_businesses, g3, List.filter_cons, hB2]

/-- C6 witness: the spec's end-to-end scenario on the empty store with phone
`26097xxxx` and business `B1`. -/
theorem get_or_create_business_selection_flow_witness :
    (get_or_create_session 7 30 { user_sessions := [], conversation_history := [] }
      "26097xxxx" none).1 = "_temp" ∧
    (get_or_create_session 7 30 { user_sessions := [], conversation_history := [] }
      "26097xxxx" none).2.1.state = ConversationState.BUSINESS_SELECTION ∧
    (get_or_create_session 7 30
      (get_or_create_session 7 30 { user_sessions := [], conversation_history := [] }
        "26097xxxx" none).2.2 "26097xxxx" (some "B1")).1 = "B1" ∧
    (get_or_create_session 7 30
      (get_or_create_session 7 30 { user_sessions := [], conversation_history := [] }
        "26097xxxx" none).2.2 "26097xxxx" (some "B1")).2.1.state =
      ConversationState.GREETING ∧
    sessionAt (get_or_create_session 7 30
      (get_or_create_session 7 30 { user_sessions := [], conversation_history := [] }
        "26097xxxx" none).2.2 "26097xxxx" (some "B1")).2.2 "26097xxxx" "_temp" =
      none ∧
    get_all_user_businesses (get_or_create_session 7 30
      (get_or_create_session 7 30 { user_sessions := [], conversation_history := [] }
        "26097xxxx" none).2.2 "26097xxxx" (some "B1")).2.2 "26097xxxx" = ["B1"] :=
  get_or_create_business_selection_flow 7 30
    { user_sessions := [], conversation_history := [] } "26097xxxx" "B1"
    (by decide) (by decide) rfl
